import Mathlib

set_option autoImplicit false
set_option maxHeartbeats 1000000

/-!
Verification of the persistence and model-operation layer of `student.py`
(student model CLI).  The file-level part (`load_model`, `save_model`,
`validate_model`, `get_default_model`) is embedded over a small JSON value
type with Python's membership / subscript semantics made explicit, and the
filesystem is modelled as the pair of the primary and backup file contents.
The command layer (`cmd_add`, `cmd_update`, `cmd_struggle`, ...) is embedded
over a typed document as produced and consumed by the program; Python's
in-place dictionary mutation becomes explicit state passing, and each
command returns, besides the resulting document, whether it called
`save_model`.

Timestamps: every `datetime.now().isoformat()` call site takes a single
`now : String` parameter (the program only stores these strings, never
parses them back, so the occasional microsecond difference between two
adjacent `now()` calls is immaterial to every property below).
-/

namespace Student

/-- JSON values as produced by Python's `json.load`.  Objects keep field
order (Python dicts preserve insertion order); `json.load` never produces
duplicate keys. -/
inductive Json where
  | null
  | bool (b : Bool)
  | num (n : Int)
  | str (s : String)
  | arr (elems : List Json)
  | obj (fields : List (String × Json))
deriving Repr

/-- Python exceptions that the embedded fragments can raise. -/
inductive PyErr where
  | typeError
  | keyError
  | indexError
deriving Repr, DecidableEq

/-!
String primitives.  Python's `str.lower`, `str.strip`, `str.split` and
`int(...)` are embedded structurally over the character list of the string
(the ASCII fragment the program meets; e.g. PEP-515 underscore separators
of `int` and non-ASCII case folding are outside every input below).
-/

/-- Python's `str.lower()`. -/
def strLower (s : String) : String := String.mk (s.data.map Char.toLower)

/-- `xs.split(c)` on character lists: always returns at least one (possibly
empty) piece, one more piece per separator occurrence. -/
def splitOnChar (c : Char) : List Char → List (List Char)
  | [] => [[]]
  | x :: rest =>
    match splitOnChar c rest with
    | [] => [[x]]  -- unreachable: the result is never empty
    | h :: t => if x == c then [] :: h :: t else (x :: h) :: t

/-- Python's `s.split(sep)` for a one-character separator. -/
def pySplit (sep : Char) (s : String) : List String :=
  (splitOnChar sep s.data).map String.mk

/-- Python's `str.strip()` (whitespace at both ends). -/
def pyStrip (s : String) : String :=
  String.mk (((s.data.dropWhile Char.isWhitespace).reverse.dropWhile
    Char.isWhitespace).reverse)

/-- Python's `c in s` for a one-character needle. -/
def strContainsChar (s : String) (c : Char) : Bool :=
  s.data.any (fun x => x == c)

/-- Python's `int(s)` on decimal literals: optional surrounding whitespace,
optional sign, one or more ASCII digits; everything else raises
`ValueError` (`none`). -/
def pyInt (s : String) : Option Int :=
  let t := ((s.data.dropWhile Char.isWhitespace).reverse.dropWhile
    Char.isWhitespace).reverse
  let signDigits : Int × List Char :=
    match t with
    | '-' :: rest => (-1, rest)
    | '+' :: rest => (1, rest)
    | _ => (1, t)
  if signDigits.2.length > 0 && signDigits.2.all Char.isDigit then
    some (signDigits.1 *
      (signDigits.2.foldl (fun acc c => acc * 10 + (c.toNat - '0'.toNat)) (0 : Nat) : Nat))
  else none

/-- Python's `key in value` for a string `key` (`in` on a dict tests key
membership, on a list element membership, on a string substring containment;
on other values it raises `TypeError`). -/
def pyIn (key : String) : Json → Except PyErr Bool
  | .obj fields => .ok (fields.any (fun kv => kv.1 == key))
  | .arr elems =>
      .ok (elems.any (fun j => match j with | .str s => s == key | _ => false))
  | .str s => .ok (decide (key.toList <:+: s.toList))
  | _ => .error .typeError

/-- Python's `value[key]` for a string `key`: dict lookup (first — and in
Python only — binding), `KeyError` when absent, `TypeError` on everything
else (list and string subscripts require integers). -/
def pySubscript (j : Json) (key : String) : Except PyErr Json :=
  match j with
  | .obj fields =>
      match fields.find? (fun kv => kv.1 == key) with
      | some kv => .ok kv.2
      | none => .error .keyError
  | _ => .error .typeError

/-- Update-or-append of a field in an ordered field list, matching Python's
`d[key] = v` on dicts (update keeps the position, insertion appends). -/
def setField (fields : List (String × Json)) (key : String) (v : Json) :
    List (String × Json) :=
  if fields.any (fun kv => kv.1 == key) then
    fields.map (fun kv => if kv.1 == key then (key, v) else kv)
  else
    fields ++ [(key, v)]

/-- Python's `value[key] = v` item assignment: only dicts support string
keys; lists and strings raise `TypeError`. -/
def pySetKey (j : Json) (key : String) (v : Json) : Except PyErr Json :=
  match j with
  | .obj fields => .ok (.obj (setField fields key v))
  | _ => .error .typeError

/-- `validate_model` from student.py, with Python's `in` / subscript
semantics explicit:

    required_keys = ["metadata", "concepts", "sessions"]
    if not all(key in model for key in required_keys): return False
    required_metadata = ["created", "last_updated"]
    if not all(key in model["metadata"] for key in required_metadata): return False
    return True

`all` short-circuits, so a `TypeError` from a later membership test is only
raised when the earlier ones returned `True`. -/
def validate_model (model : Json) : Except PyErr Bool := do
  let b1 ← pyIn "metadata" model
  if !b1 then return false
  let b2 ← pyIn "concepts" model
  if !b2 then return false
  let b3 ← pyIn "sessions" model
  if !b3 then return false
  let md ← pySubscript model "metadata"
  let c1 ← pyIn "created" md
  if !c1 then return false
  let c2 ← pyIn "last_updated" md
  if !c2 then return false
  return true

/-- `get_default_model` from student.py (both `datetime.now()` calls are
modelled by the single `now` parameter). -/
def get_default_model (now : String) : Json :=
  .obj [("schema_version", .str "1.0"),
        ("metadata", .obj [("created", .str now),
                           ("last_updated", .str now),
                           ("student_profile", .str "")]),
        ("concepts", .obj []),
        ("misconceptions", .arr []),
        ("sessions", .arr [])]

/-- Contents of one on-disk file: `none` = the file does not exist;
`some none` = it exists but `json.load` raises `JSONDecodeError` on it;
`some (some j)` = it parses to the JSON value `j`. -/
abbrev FileState := Option (Option Json)

/-- The two files the Store touches (the `.json.tmp` file is transient and
never observed, so it is not part of the state). -/
structure FS where
  primary : FileState
  backup : FileState
deriving Repr

/-- Fault plan for the four fallible filesystem operations inside
`save_model`, in program order: the pre-write `shutil.copy` of the primary
to the backup, the `json.dump` to the temp file, the atomic
`temp.replace(DATA_FILE)`, and the post-rename first-save `shutil.copy`.
`true` means that operation raises an `OSError`-like exception (caught by
the `except Exception` of `save_model`). -/
structure IOPlan where
  copyBackupFail : Bool
  writeTmpFail : Bool
  renameFail : Bool
  postCopyFail : Bool
deriving Repr, DecidableEq

/-- The all-operations-succeed fault plan. -/
def ioOK : IOPlan := ⟨false, false, false, false⟩

/-- `save_model` from student.py.  Returns the boolean result, the
filesystem after the call, and the in-memory model object after the call
(Python mutates `model["metadata"]["last_updated"]` in place, and that
mutation is visible to the caller even when a later step fails).
Serialisation is the identity on our JSON values (`json.dump` followed by
`json.load` reproduces the same value for duplicate-key-free objects). -/
def save_model (model : Json) (now : String) (fs : FS) (plan : IOPlan) :
    Bool × FS × Json :=
  match validate_model model with
  | .error _ => (false, fs, model)
  | .ok false => (false, fs, model)
  | .ok true =>
    -- model["metadata"]["last_updated"] = datetime.now().isoformat()
    match pySubscript model "metadata" with
    | .error _ => (false, fs, model)
    | .ok md =>
      match pySetKey md "last_updated" (.str now) with
      | .error _ => (false, fs, model)
      | .ok md2 =>
        match pySetKey model "metadata" md2 with
        | .error _ => (false, fs, model)
        | .ok model2 =>
          -- if DATA_FILE.exists(): shutil.copy(DATA_FILE, backup)
          match fs.primary with
          | some p =>
            if plan.copyBackupFail then (false, fs, model2)
            else
              let fs1 : FS := { fs with backup := some p }
              if plan.writeTmpFail then (false, fs1, model2)
              else if plan.renameFail then (false, fs1, model2)
              else
                let fs2 : FS := { fs1 with primary := some (some model2) }
                -- backup now exists, so the post-rename copy is skipped
                (true, fs2, model2)
          | none =>
            if plan.writeTmpFail then (false, fs, model2)
            else if plan.renameFail then (false, fs, model2)
            else
              let fs2 : FS := { fs with primary := some (some model2) }
              match fs2.backup with
              | some _ => (true, fs2, model2)
              | none =>
                if plan.postCopyFail then (false, fs2, model2)
                else (true, { fs2 with backup := some (some model2) }, model2)

/-- `load_model` from student.py.  Both recovery branches (invalid
structure and `JSONDecodeError`) read and parse the backup, re-validate,
and on success call `save_model` — whose boolean result is ignored — and
return the restored (and possibly timestamp-mutated) model. -/
def load_model (fs : FS) (now : String) (plan : IOPlan) : Json × FS :=
  match fs.primary with
  | none =>
    -- no file: return get_default_model()
    (get_default_model now, fs)
  | some none =>
    -- json.load raises JSONDecodeError; the handler retries the backup
    -- inside its own try/except (a bare `except: pass`)
    match fs.backup with
    | some (some b) =>
      match validate_model b with
      | .ok true =>
        let r := save_model b now fs plan
        (r.2.2, r.2.1)
      | _ => (get_default_model now, fs)
    | _ => (get_default_model now, fs)
  | some (some j) =>
    match validate_model j with
    | .ok true => (j, fs)
    | .ok false =>
      -- invalid structure: the backup json.load here is NOT wrapped in its
      -- own try, so a JSONDecodeError from it jumps to the outer
      -- `except json.JSONDecodeError` handler, whose own retry of the
      -- backup then fails again — net effect: default model.  A TypeError
      -- from re-validation is caught by `except Exception` — default model.
      match fs.backup with
      | some (some b) =>
        match validate_model b with
        | .ok true =>
          let r := save_model b now fs plan
          (r.2.2, r.2.1)
        | _ => (get_default_model now, fs)
      | _ => (get_default_model now, fs)
    | .error _ =>
      -- TypeError from validate_model: caught by `except Exception`,
      -- which returns the default model without consulting the backup
      (get_default_model now, fs)

/-- The restored backup object after `save_model` refreshed
`metadata.last_updated`: the backup's field list `bf` with its `metadata`
object `mfs` updated at `last_updated`. -/
def refreshLastUpdated (bf mfs : List (String × Json)) (now : String) : Json :=
  .obj (setField bf "metadata" (.obj (setField mfs "last_updated" (.str now))))

/-- The primary file is corrupt (malformed JSON) or fails validation (the
predicate returns `False` or raises). -/
def primaryBad (fs : FS) : Prop :=
  fs.primary = some none
    ∨ ∃ p, fs.primary = some (some p) ∧ validate_model p ≠ .ok true

/-- No backup, or the backup is corrupt, or it fails validation. -/
def backupBad (fs : FS) : Prop :=
  fs.backup = none ∨ fs.backup = some none
    ∨ ∃ b, fs.backup = some (some b) ∧ validate_model b ≠ .ok true

/-!
## Typed document layer

The command handlers (Phase 2/3/5 of student.py) only ever traverse
documents whose concept and misconception records carry every field the
program itself writes, so this layer represents those records as total
structures: Python's `concept.get('struggles', [])` reads the `struggles`
field, `concept.setdefault('struggles', []).append(x)` appends to it, and
so on.  The `concepts` dict is an insertion-ordered association list with
(as in Python dicts) unique keys; the operations below never create a
duplicate key.
-/

/-- One concept record, exactly the fields `cmd_add` writes. -/
structure Concept where
  mastery : Int
  confidence : String
  first_encountered : String
  last_reviewed : String
  struggles : List String
  breakthroughs : List String
  related_concepts : List String
deriving Repr, DecidableEq

/-- One misconception record, exactly the fields `cmd_misconception_add`
writes. -/
structure Misconception where
  concept : String
  belief : String
  correction : String
  date_identified : String
  resolved : Bool
  date_resolved : Option String
deriving Repr, DecidableEq

/-- The in-memory document as the command handlers see it (the typed view
of the JSON root object). `sessions` is validated for presence but never
written by any command. -/
structure StudentModel where
  created : String
  last_updated : String
  student_profile : String
  concepts : List (String × Concept)
  misconceptions : List Misconception
  sessions : List String
deriving Repr, DecidableEq

/-- `find_concept` from student.py: case-insensitive linear scan over the
concept keys in order, returning the first stored key whose lowercasing
matches, else `None`. -/
def find_concept (m : StudentModel) (name : String) : Option String :=
  (m.concepts.find? (fun kv => strLower kv.1 == strLower name)).map (fun kv => kv.1)

/-- `model["concepts"][key]` (first binding of the exact key). -/
def getConcept? (m : StudentModel) (key : String) : Option Concept :=
  (m.concepts.find? (fun kv => kv.1 == key)).map (fun kv => kv.2)

/-- In-place update of the value stored under an existing exact key
(Python's mutation of the dict entry the handler just looked up). -/
def setConcept (m : StudentModel) (key : String) (c : Concept) : StudentModel :=
  { m with concepts := m.concepts.map (fun kv => if kv.1 == key then (key, c) else kv) }

/-- Python's `xs[i]` on a list with an `int` index: non-negative indices
count from the front, negative ones from the back, out of range raises
`IndexError` (`none`). -/
def pyListGet {α : Type} (xs : List α) (i : Int) : Option α :=
  if 0 ≤ i then xs.get? i.toNat
  else
    let j : Int := (xs.length : Int) + i
    if 0 ≤ j then xs.get? j.toNat else none

/-- The confidence enum check `confidence in ['low', 'medium', 'high']`. -/
def validConfidence (c : String) : Bool :=
  c == "low" || c == "medium" || c == "high"

/-- `cmd_add` from student.py.  `related` is the `--related` option
(argparse default `""`; the handler treats the empty string as absent).
Returns the document afterwards and whether `save_model` was called. -/
def cmd_add (m : StudentModel) (name : String) (mastery : Int)
    (confidence : String) (related : String) (now : String) :
    StudentModel × Bool :=
  if (find_concept m name).isSome then (m, false)
  else if !(decide (0 ≤ mastery) && decide (mastery ≤ 100)) then (m, false)
  else if !validConfidence confidence then (m, false)
  else
    let relatedList := if related == "" then [] else (pySplit ',' related).map pyStrip
    let c : Concept :=
      { mastery := mastery, confidence := confidence,
        first_encountered := now, last_reviewed := now,
        struggles := [], breakthroughs := [], related_concepts := relatedList }
    ({ m with concepts := m.concepts ++ [(name, c)] }, true)

/-- `cmd_update` from student.py.  The handler validates and applies
`--mastery` first, then `--confidence`, then unconditionally refreshes
`last_reviewed`, and saves only when at least one field change was
recorded.  Note that a valid `--mastery` combined with an invalid
`--confidence` leaves the in-memory document with the mastery already
applied (Python mutated the dict before the early return) but unsaved. -/
def cmd_update (m : StudentModel) (name : String) (mastery : Option Int)
    (confidence : Option String) (now : String) : StudentModel × Bool :=
  match find_concept m name with
  | none => (m, false)
  | some key =>
    match getConcept? m key with
    | none => (m, false)  -- unreachable: `find_concept` returned a stored key
    | some c0 =>
      match mastery with
      | some v =>
        if !(decide (0 ≤ v) && decide (v ≤ 100)) then (m, false)
        else
          let c1 := { c0 with mastery := v }
          match confidence with
          | some cf =>
            if !validConfidence cf then (setConcept m key c1, false)
            else
              let c2 := { c1 with confidence := cf, last_reviewed := now }
              (setConcept m key c2, true)
          | none =>
            (setConcept m key { c1 with last_reviewed := now }, true)
      | none =>
        match confidence with
        | some cf =>
          if !validConfidence cf then (m, false)
          else
            let c2 := { c0 with confidence := cf, last_reviewed := now }
            (setConcept m key c2, true)
        | none =>
          -- no flags: last_reviewed is still refreshed in memory, but
          -- `updated` is empty so nothing is saved
          (setConcept m key { c0 with last_reviewed := now }, false)

/-- `cmd_struggle` from student.py. -/
def cmd_struggle (m : StudentModel) (name desc now : String) :
    StudentModel × Bool :=
  match find_concept m name with
  | none => (m, false)
  | some key =>
    match getConcept? m key with
    | none => (m, false)  -- unreachable
    | some c =>
      if desc ∈ c.struggles then (m, false)
      else
        (setConcept m key
          { c with struggles := c.struggles ++ [desc], last_reviewed := now }, true)

/-- `cmd_breakthrough` from student.py. -/
def cmd_breakthrough (m : StudentModel) (name desc now : String) :
    StudentModel × Bool :=
  match find_concept m name with
  | none => (m, false)
  | some key =>
    match getConcept? m key with
    | none => (m, false)  -- unreachable
    | some c =>
      if desc ∈ c.breakthroughs then (m, false)
      else
        (setConcept m key
          { c with breakthroughs := c.breakthroughs ++ [desc], last_reviewed := now }, true)

/-- `cmd_link` from student.py.  The handler never touches
`last_reviewed` (and indeed never reads the clock). -/
def cmd_link (m : StudentModel) (name related : String) :
    StudentModel × Bool :=
  match find_concept m name with
  | none => (m, false)
  | some key =>
    let linkName := (find_concept m related).getD related
    match getConcept? m key with
    | none => (m, false)  -- unreachable
    | some c =>
      if c.related_concepts.any (fun r => strLower r == strLower linkName) then (m, false)
      else
        (setConcept m key
          { c with related_concepts := c.related_concepts ++ [linkName] }, true)

/-- `cmd_unlink` from student.py (`list.remove` drops the first element
equal to the first case-insensitive match; again no `last_reviewed`
refresh). -/
def cmd_unlink (m : StudentModel) (name related : String) :
    StudentModel × Bool :=
  match find_concept m name with
  | none => (m, false)
  | some key =>
    match getConcept? m key with
    | none => (m, false)  -- unreachable
    | some c =>
      match c.related_concepts.find? (fun r => strLower r == strLower related) with
      | none => (m, false)
      | some removed =>
        (setConcept m key
          { c with related_concepts := c.related_concepts.erase removed }, true)

/-- `cmd_misconception_add` from student.py: duplicate key is
(concept lower-cased, belief lower-cased); the concept record itself is
never touched. -/
def cmd_misconception_add (m : StudentModel) (name belief correction now : String) :
    StudentModel × Bool :=
  match find_concept m name with
  | none => (m, false)
  | some key =>
    if m.misconceptions.any (fun mc =>
        strLower mc.concept == strLower key && strLower mc.belief == strLower belief) then
      (m, false)
    else
      let mc : Misconception :=
        { concept := key, belief := belief, correction := correction,
          date_identified := now, resolved := false, date_resolved := none }
      ({ m with misconceptions := m.misconceptions ++ [mc] }, true)

/-- student.py's `concept_misconceptions`: the `(index, record)` pairs of
the unresolved misconceptions belonging to `key`,

    [(i, m) for i, m in enumerate(misconceptions)
     if m["concept"].lower() == concept_key.lower() and not m["resolved"]]. -/
def concept_misconceptions (m : StudentModel) (key : String) :
    List (Nat × Misconception) :=
  m.misconceptions.enum.filter (fun im =>
    strLower im.2.concept == strLower key && !im.2.resolved)

/-- The positions, in stored order, of the unresolved misconceptions
belonging to `key` — the reference reading of "the subsequence of
unresolved misconceptions", stated independently of `enumerate`. -/
def unresolvedPositions (m : StudentModel) (key : String) : List Nat :=
  (List.range m.misconceptions.length).filter (fun i =>
    match m.misconceptions.get? i with
    | some mc => strLower mc.concept == strLower key && !mc.resolved
    | none => false)

/-- `cmd_misconception_resolve` from student.py.  The only guard is
`args.index >= len(concept_misconceptions)`, so negative indices reach the
subscript `concept_misconceptions[args.index]`, which obeys Python
negative-index semantics and raises `IndexError` (our `.error`) when the
index is below `-len`.  On the `.ok` outcomes the second component again
records whether `save_model` was called. -/
def cmd_misconception_resolve (m : StudentModel) (name : String) (index : Int)
    (now : String) : Except PyErr (StudentModel × Bool) :=
  match find_concept m name with
  | none => .ok (m, false)
  | some key =>
    let cms := concept_misconceptions m key
    if cms.isEmpty then .ok (m, false)
    else if (cms.length : Int) ≤ index then .ok (m, false)
    else
      match pyListGet cms index with
      | none => .error .indexError
      | some im =>
        let mc2 : Misconception := { im.2 with resolved := true, date_resolved := some now }
        .ok ({ m with misconceptions := m.misconceptions.set im.1 mc2 }, true)

/-!
## The session-end batch (`cmd_session_end`)

Each item is processed inside its own `try`; a failed item contributes one
entry to `errors`, a non-failed one contributes one entry to `changes`
(including the duplicate-struggle / duplicate-breakthrough informational
no-ops).  We track the two lists by their lengths.  `save_model` is called
exactly when `changes` is non-empty.
-/

/-- One `--update "Concept:mastery:confidence"` item.  Returns the
document afterwards and whether the item succeeded (was appended to
`changes` rather than `errors`). -/
def processUpdate (m : StudentModel) (upd : String) (now : String) :
    StudentModel × Bool :=
  let parts := pySplit ':' upd
  if parts.length != 3 then (m, false)
  else
    match parts with
    | [conceptName, masteryStr, confidence] =>
      match pyInt masteryStr with
      | none => (m, false)  -- ValueError from int()
      | some v =>
        if !(decide (0 ≤ v) && decide (v ≤ 100)) then (m, false)
        else if !validConfidence confidence then (m, false)
        else
          match find_concept m conceptName with
          | none => (m, false)
          | some key =>
            match getConcept? m key with
            | none => (m, false)  -- unreachable
            | some c =>
              (setConcept m key
                { c with mastery := v, confidence := confidence,
                         last_reviewed := now }, true)
    | _ => (m, false)  -- unreachable given the length test

/-- Splitting `"Concept:description"` at the first colon
(`split(':', 1)`), defined on strings containing a colon. -/
def splitOnce (s : String) : String × String :=
  match pySplit ':' s with
  | [] => (s, "")  -- unreachable: pySplit never returns []
  | a :: rest => (a, String.mk (List.intercalate [':'] (rest.map String.data)))

/-- One `--struggle "Concept:description"` item.  A duplicate description
is a success (an informational `changes` entry) that performs no
mutation. -/
def processStruggle (m : StudentModel) (s : String) (now : String) :
    StudentModel × Bool :=
  if !(strContainsChar s ':') then (m, false)
  else
    let (conceptName, desc) := splitOnce s
    match find_concept m conceptName with
    | none => (m, false)
    | some key =>
      match getConcept? m key with
      | none => (m, false)  -- unreachable
      | some c =>
        if desc ∈ c.struggles then (m, true)
        else
          (setConcept m key
            { c with struggles := c.struggles ++ [desc], last_reviewed := now }, true)

/-- One `--breakthrough "Concept:description"` item. -/
def processBreakthrough (m : StudentModel) (s : String) (now : String) :
    StudentModel × Bool :=
  if !(strContainsChar s ':') then (m, false)
  else
    let (conceptName, desc) := splitOnce s
    match find_concept m conceptName with
    | none => (m, false)
    | some key =>
      match getConcept? m key with
      | none => (m, false)  -- unreachable
      | some c =>
        if desc ∈ c.breakthroughs then (m, true)
        else
          (setConcept m key
            { c with breakthroughs := c.breakthroughs ++ [desc], last_reviewed := now }, true)

/-- Result of the batch: document, number of `errors` entries, number of
`changes` entries, and whether `save_model` was called. -/
structure BatchResult where
  model : StudentModel
  errors : Nat
  changes : Nat
  saveCalled : Bool
deriving Repr, DecidableEq

/-- Fold one item processor over a list of items, accumulating the error
and change counts. -/
def runItems (step : StudentModel → String → String → StudentModel × Bool)
    (now : String) : List String → StudentModel × Nat × Nat →
    StudentModel × Nat × Nat
  | [], acc => acc
  | item :: rest, (m, errs, chgs) =>
    let r := step m item now
    if r.2 then runItems step now rest (r.1, errs, chgs + 1)
    else runItems step now rest (r.1, errs + 1, chgs)

/-- `cmd_session_end` from student.py: all `--update` items in order, then
all `--struggle` items, then all `--breakthrough` items; one `save_model`
call iff `changes` ended up non-empty. -/
def cmd_session_end (m : StudentModel) (updates struggles breakthroughs : List String)
    (now : String) : BatchResult :=
  let a := runItems processUpdate now updates (m, 0, 0)
  let b := runItems processStruggle now struggles a
  let c := runItems processBreakthrough now breakthroughs b
  { model := c.1, errors := c.2.1, changes := c.2.2, saveCalled := c.2.2 != 0 }

/-- Every stored mastery value is within 0–100. -/
def masteryInv (m : StudentModel) : Prop :=
  ∀ p ∈ m.concepts, 0 ≤ p.2.mastery ∧ p.2.mastery ≤ 100

/-- The document after marking the stored entry at position `i` (whose
current record is `mc`) resolved at time `now` — the effect of the two
assignments `misconceptions[actual_index]["resolved"] = True` and
`...["date_resolved"] = ...` in `cmd_misconception_resolve`. -/
def resolveAt (m : StudentModel) (i : Nat) (mc : Misconception) (now : String) :
    StudentModel :=
  { m with misconceptions :=
      m.misconceptions.set i { mc with resolved := true, date_resolved := some now } }

/-!
## Lemmas about `setField` on JSON objects
-/

theorem map_fst_mapSet (l : List (String × Json)) (key : String) (v : Json) :
    ((l.map (fun kv => if kv.1 == key then (key, v) else kv)).map Prod.fst)
      = l.map Prod.fst := by
  induction l with
  | nil => rfl
  | cons kv rest ih =>
    simp only [List.map_cons, ih]
    congr 1
    cases h : kv.1 == key with
    | true =>
      rw [if_pos rfl]
      exact (eq_of_beq h).symm
    | false =>
      rw [if_neg Bool.false_ne_true]

theorem find?_mapSet_self (l : List (String × Json)) (key : String) (v : Json) :
    (l.map (fun kv => if kv.1 == key then (key, v) else kv)).find?
        (fun kv => kv.1 == key)
      = (l.find? (fun kv => kv.1 == key)).map (fun _ => (key, v)) := by
  induction l with
  | nil => rfl
  | cons kv rest ih =>
    cases h : kv.1 == key with
    | true => simp [List.find?, h]
    | false => simpa [List.find?, h] using ih

theorem find?_mapSet_other (l : List (String × Json)) (key k : String) (v : Json)
    (hne : k ≠ key) :
    (l.map (fun kv => if kv.1 == key then (key, v) else kv)).find?
        (fun kv => kv.1 == k)
      = l.find? (fun kv => kv.1 == k) := by
  induction l with
  | nil => rfl
  | cons kv rest ih =>
    cases h : kv.1 == key with
    | true =>
      have hkk : (key == k) = false := by
        cases hkk2 : key == k with
        | true => exact absurd (eq_of_beq hkk2).symm hne
        | false => rfl
      have hk2 : (kv.1 == k) = false := by rw [eq_of_beq h]; exact hkk
      simpa [List.find?, h, hkk, hk2] using ih
    | false =>
      cases h2 : kv.1 == k with
      | true => simp [List.find?, h, h2]
      | false => simpa [List.find?, h, h2] using ih

theorem find?_setField_self (fields : List (String × Json)) (key : String) (v : Json) :
    (setField fields key v).find? (fun kv => kv.1 == key) = some (key, v) := by
  unfold setField
  cases hany : fields.any (fun kv => kv.1 == key) with
  | true =>
    rw [if_pos rfl, find?_mapSet_self]
    rcases List.any_eq_true.mp hany with ⟨kv, hkv, hbeq⟩
    have hsome : (fields.find? (fun kv => kv.1 == key)).isSome := by
      rw [List.find?_isSome]
      exact ⟨kv, hkv, hbeq⟩
    rcases Option.isSome_iff_exists.mp hsome with ⟨kv', hkv'⟩
    rw [hkv']
    rfl
  | false =>
    rw [if_neg Bool.false_ne_true, List.find?_append]
    have hnone : fields.find? (fun kv => kv.1 == key) = none := by
      rw [List.find?_eq_none]
      intro x hx
      have := List.any_eq_true.not.mp (by rw [hany]; exact Bool.false_ne_true)
      exact fun hbx => this ⟨x, hx, hbx⟩
    rw [hnone]
    simp [List.find?]

theorem find?_setField_other (fields : List (String × Json)) (key k : String)
    (v : Json) (hne : k ≠ key) :
    (setField fields key v).find? (fun kv => kv.1 == k)
      = fields.find? (fun kv => kv.1 == k) := by
  unfold setField
  cases hany : fields.any (fun kv => kv.1 == key) with
  | true =>
    rw [if_pos rfl]
    exact find?_mapSet_other fields key k v hne
  | false =>
    rw [if_neg Bool.false_ne_true, List.find?_append]
    have hkk : (key == k) = false := by
      cases hkk2 : key == k with
      | true => exact absurd (eq_of_beq hkk2).symm hne
      | false => rfl
    cases hf : fields.find? (fun kv => kv.1 == k) with
    | some kv => rfl
    | none => simp [List.find?, hkk]

theorem any_fst_eq (l : List (String × Json)) (k : String) :
    l.any (fun kv => kv.1 == k) = (l.map Prod.fst).any (fun x => x == k) := by
  induction l with
  | nil => rfl
  | cons kv rest ih => simp [List.any_cons, ih]

theorem any_setField (fields : List (String × Json)) (key : String) (v : Json)
    (k : String) :
    (setField fields key v).any (fun kv => kv.1 == k)
      = (fields.any (fun kv => kv.1 == k) || key == k) := by
  unfold setField
  cases hany : fields.any (fun kv => kv.1 == key) with
  | true =>
    rw [if_pos rfl]
    have hpres : (fields.map (fun kv =>
        if kv.1 == key then (key, v) else kv)).any (fun kv => kv.1 == k)
        = fields.any (fun kv => kv.1 == k) := by
      rw [any_fst_eq, map_fst_mapSet, ← any_fst_eq]
    rw [hpres]
    cases hk : key == k with
    | true =>
      have : fields.any (fun kv => kv.1 == k) = true := by
        rw [← eq_of_beq hk]
        exact hany
      rw [this]
      rfl
    | false => simp
  | false =>
    rw [if_neg Bool.false_ne_true]
    simp [List.any_append]

/-!
## Association-list lemmas for the concepts dictionary
-/

theorem find?_fst_map (l : List (String × Concept)) (name : String) :
    (l.find? (fun kv => strLower kv.1 == strLower name)).map (fun kv => kv.1)
      = (l.map Prod.fst).find? (fun k => strLower k == strLower name) := by
  induction l with
  | nil => rfl
  | cons kv rest ih =>
    cases h : strLower kv.1 == strLower name <;> simp [List.find?, h, ih]

theorem find_concept_eq_keys (m : StudentModel) (name : String) :
    find_concept m name
      = (m.concepts.map Prod.fst).find? (fun k => strLower k == strLower name) := by
  simpa [find_concept] using find?_fst_map m.concepts name

theorem map_fst_setEntry (l : List (String × Concept)) (key : String) (c : Concept) :
    (l.map (fun kv => if kv.1 == key then (key, c) else kv)).map Prod.fst
      = l.map Prod.fst := by
  induction l with
  | nil => rfl
  | cons kv rest ih =>
    simp only [List.map_cons, ih]
    congr 1
    cases h : kv.1 == key with
    | true =>
      rw [if_pos rfl]
      exact (eq_of_beq h).symm
    | false =>
      rw [if_neg Bool.false_ne_true]

theorem find?_setEntry_self (l : List (String × Concept)) (key : String) (c : Concept) :
    ((l.map (fun kv => if kv.1 == key then (key, c) else kv)).find?
        (fun kv => kv.1 == key)).map (fun kv => kv.2)
      = ((l.find? (fun kv => kv.1 == key)).map (fun kv => kv.2)).map
          (fun _ => c) := by
  induction l with
  | nil => rfl
  | cons kv rest ih =>
    cases h : kv.1 == key with
    | true => simp [List.find?, h]
    | false => simpa [List.find?, h] using ih

theorem find?_setEntry_other (l : List (String × Concept)) (key k' : String)
    (c : Concept) (hne : k' ≠ key) :
    (l.map (fun kv => if kv.1 == key then (key, c) else kv)).find?
        (fun kv => kv.1 == k')
      = l.find? (fun kv => kv.1 == k') := by
  induction l with
  | nil => rfl
  | cons kv rest ih =>
    cases h : kv.1 == key with
    | true =>
      have hk : (key == k') = false := by
        cases hkk : key == k' with
        | true => exact absurd (eq_of_beq hkk).symm hne
        | false => rfl
      have hk2 : (kv.1 == k') = false := by rw [eq_of_beq h]; exact hk
      simpa [List.find?, h, hk, hk2] using ih
    | false =>
      cases h2 : kv.1 == k' with
      | true => simp [List.find?, h, h2]
      | false => simpa [List.find?, h, h2] using ih

theorem find_concept_setConcept (m : StudentModel) (key : String) (c : Concept)
    (name : String) :
    find_concept (setConcept m key c) name = find_concept m name := by
  rw [find_concept_eq_keys, find_concept_eq_keys]
  show ((m.concepts.map _).map Prod.fst).find? _ = _
  rw [map_fst_setEntry]

theorem getConcept?_setConcept_self (m : StudentModel) (key : String) (c : Concept) :
    getConcept? (setConcept m key c) key = (getConcept? m key).map (fun _ => c) := by
  simp only [getConcept?, setConcept]
  exact find?_setEntry_self m.concepts key c

theorem getConcept?_setConcept_other (m : StudentModel) (key k' : String)
    (c : Concept) (hne : k' ≠ key) :
    getConcept? (setConcept m key c) k' = getConcept? m k' := by
  simp only [getConcept?, setConcept]
  rw [find?_setEntry_other m.concepts key k' c hne]

theorem getConcept?_of_find_concept (m : StudentModel) (name key : String)
    (h : find_concept m name = some key) : ∃ c, getConcept? m key = some c := by
  unfold find_concept at h
  rcases Option.map_eq_some'.mp h with ⟨kv, hfind, hfst⟩
  have hmem := List.mem_of_find?_eq_some hfind
  have : (m.concepts.find? (fun kv => kv.1 == key)).isSome := by
    rw [List.find?_isSome]
    exact ⟨kv, hmem, by simp [hfst]⟩
  rcases Option.isSome_iff_exists.mp this with ⟨kv', hkv'⟩
  exact ⟨kv'.2, by simp [getConcept?, hkv']⟩

/-!
## C8 — case-insensitive concept lookup returning the stored key
-/

/-- C8: `find_concept` performs a case-insensitive scan over the concept
keys: a successful lookup returns a stored key (in its original casing)
whose lowercasing matches the query's, a failed lookup means no stored key
matches case-insensitively, and adding `"Photosynthesis"` then looking up
`"PHOTOSYNTHESIS"` resolves to the stored key `"Photosynthesis"`. -/
theorem C8_find_concept_case_insensitive :
    (∀ (m : StudentModel) (name key : String), find_concept m name = some key →
        key ∈ m.concepts.map Prod.fst ∧ strLower key = strLower name)
    ∧ (∀ (m : StudentModel) (name : String), find_concept m name = none →
        ∀ k ∈ m.concepts.map Prod.fst, strLower k ≠ strLower name)
    ∧ find_concept (cmd_add ⟨"T0", "T0", "", [], [], []⟩
        "Photosynthesis" 50 "medium" "" "T0").1 "PHOTOSYNTHESIS"
        = some "Photosynthesis" := by
  refine ⟨?_, ?_, by decide⟩
  · intro m name key h
    rw [find_concept_eq_keys] at h
    have hp := List.find?_some (p := fun k => strLower k == strLower name) h
    exact ⟨List.mem_of_find?_eq_some h, eq_of_beq hp⟩
  · intro m name h k hk
    rw [find_concept_eq_keys] at h
    have := List.find?_eq_none.mp h k hk
    simpa using this

/-- Witness for C8 at a concrete lookup. -/
theorem C8_witness :
    "Photosynthesis" ∈
        (⟨"T0", "T0", "", [("Photosynthesis", ⟨50, "medium", "T0", "T0", [], [], []⟩)],
          [], []⟩ : StudentModel).concepts.map Prod.fst
      ∧ strLower "Photosynthesis" = strLower "PHOTOSYNTHESIS" :=
  C8_find_concept_case_insensitive.1
    ⟨"T0", "T0", "", [("Photosynthesis", ⟨50, "medium", "T0", "T0", [], [], []⟩)], [], []⟩
    "PHOTOSYNTHESIS" "Photosynthesis" (by decide)

/-!
## C5 — mastery range validation
-/

theorem masteryInv_setConcept (m : StudentModel) (key : String) (c : Concept)
    (hm : masteryInv m) (hc : 0 ≤ c.mastery ∧ c.mastery ≤ 100) :
    masteryInv (setConcept m key c) := by
  intro p hp
  rcases List.mem_map.mp hp with ⟨q, hq, hpq⟩
  cases h : q.1 == key with
  | true =>
    rw [← hpq, if_pos (by rw [h])]
    exact hc
  | false =>
    rw [← hpq, if_neg (by rw [h]; exact Bool.false_ne_true)]
    exact hm q hq

theorem mastery_of_getConcept? (m : StudentModel) (key : String) (c0 : Concept)
    (hm : masteryInv m) (h : getConcept? m key = some c0) :
    0 ≤ c0.mastery ∧ c0.mastery ≤ 100 := by
  unfold getConcept? at h
  rcases Option.map_eq_some'.mp h with ⟨kv, hfind, hsnd⟩
  have := hm kv (List.mem_of_find?_eq_some hfind)
  rwa [hsnd] at this

theorem range_check_false {v : Int} (h : ¬(0 ≤ v ∧ v ≤ 100)) :
    (decide (0 ≤ v) && decide (v ≤ 100)) = false := by
  simp only [Bool.and_eq_false_iff, decide_eq_false_iff_not]
  omega

/-- C5: a mastery argument outside 0–100 makes both `cmd_add` and
`cmd_update` reject the request, returning the document unchanged with no
save; and under any arguments at all, both commands preserve the invariant
that every stored mastery lies within 0–100. -/
theorem C5_mastery_range :
    (∀ (m : StudentModel) (name : String) (v : Int) (cf rel now : String),
        ¬(0 ≤ v ∧ v ≤ 100) → cmd_add m name v cf rel now = (m, false))
    ∧ (∀ (m : StudentModel) (name : String) (v : Int) (cf : Option String)
          (now : String),
        ¬(0 ≤ v ∧ v ≤ 100) → cmd_update m name (some v) cf now = (m, false))
    ∧ (∀ (m : StudentModel) (name : String) (v : Int) (cf rel now : String),
        masteryInv m → masteryInv (cmd_add m name v cf rel now).1)
    ∧ (∀ (m : StudentModel) (name : String) (mv : Option Int)
          (cf : Option String) (now : String),
        masteryInv m → masteryInv (cmd_update m name mv cf now).1) := by
  refine ⟨?_, ?_, ?_, ?_⟩
  · intro m name v cf rel now h
    cases hf : (find_concept m name).isSome <;>
      simp [cmd_add, hf, range_check_false h]
  · intro m name v cf now h
    cases hf : find_concept m name with
    | none => simp [cmd_update, hf]
    | some key =>
      cases hg : getConcept? m key with
      | none => simp [cmd_update, hf, hg]
      | some c0 => simp [cmd_update, hf, hg, range_check_false h]
  · intro m name v cf rel now hm
    cases hf : (find_concept m name).isSome with
    | true => simpa [cmd_add, hf] using hm
    | false =>
      cases hb : (decide (0 ≤ v) && decide (v ≤ 100)) with
      | false => simpa [cmd_add, hf, hb] using hm
      | true =>
        cases hc : validConfidence cf with
        | false => simpa [cmd_add, hf, hb, hc] using hm
        | true =>
          have hv : 0 ≤ v ∧ v ≤ 100 := by
            simp only [Bool.and_eq_true, decide_eq_true_eq] at hb
            exact hb
          intro p hp
          simp [cmd_add, hf, hb, hc] at hp
          rcases hp with hin | rfl
          · exact hm p hin
          · exact hv
  · intro m name mv cf now hm
    cases hf : find_concept m name with
    | none => simpa [cmd_update, hf] using hm
    | some key =>
      cases hg : getConcept? m key with
      | none => simpa [cmd_update, hf, hg] using hm
      | some c0 =>
        have hc0 := mastery_of_getConcept? m key c0 hm hg
        cases mv with
        | some v =>
          cases hb : (decide (0 ≤ v) && decide (v ≤ 100)) with
          | false => simpa [cmd_update, hf, hg, hb] using hm
          | true =>
            have hv : 0 ≤ v ∧ v ≤ 100 := by
              simp only [Bool.and_eq_true, decide_eq_true_eq] at hb
              exact hb
            cases cf with
            | some s =>
              cases hcs : validConfidence s with
              | false =>
                simpa [cmd_update, hf, hg, hb, hcs] using
                  masteryInv_setConcept m key _ hm hv
              | true =>
                simpa [cmd_update, hf, hg, hb, hcs] using
                  masteryInv_setConcept m key _ hm hv
            | none =>
              simpa [cmd_update, hf, hg, hb] using
                masteryInv_setConcept m key _ hm hv
        | none =>
          cases cf with
          | some s =>
            cases hcs : validConfidence s with
            | false => simpa [cmd_update, hf, hg, hcs] using hm
            | true =>
              simpa [cmd_update, hf, hg, hcs] using
                masteryInv_setConcept m key
                  ({ c0 with confidence := s, last_reviewed := now }) hm hc0
          | none =>
            simpa [cmd_update, hf, hg] using
              masteryInv_setConcept m key
                ({ c0 with last_reviewed := now }) hm hc0

/-- Witness for C5 at a concrete out-of-range input. -/
theorem C5_witness :
    cmd_add ⟨"T0", "T0", "", [], [], []⟩ "Recursion" 150 "low" "" "T0"
        = (⟨"T0", "T0", "", [], [], []⟩, false)
      ∧ cmd_update ⟨"T0", "T0", "", [], [], []⟩ "Recursion" (some (-1)) none "T0"
        = (⟨"T0", "T0", "", [], [], []⟩, false) :=
  ⟨C5_mastery_range.1 _ "Recursion" 150 "low" "" "T0" (by decide),
   C5_mastery_range.2.1 _ "Recursion" (-1) none "T0" (by decide)⟩

/-!
## C9 — duplicate struggle text is a no-op
-/

/-- C9: logging a struggle whose text is already present is a no-op — the
document is returned unchanged and no save happens — and logging the same
struggle twice is the same as logging it once (the second call always
returns the first call's document unchanged, without saving). -/
theorem C9_duplicate_struggle_noop :
    (∀ (m : StudentModel) (name desc now key : String) (c : Concept),
        find_concept m name = some key → getConcept? m key = some c →
        desc ∈ c.struggles → cmd_struggle m name desc now = (m, false))
    ∧ (∀ (m : StudentModel) (name desc now now2 : String),
        cmd_struggle (cmd_struggle m name desc now).1 name desc now2
          = ((cmd_struggle m name desc now).1, false)) := by
  constructor
  · intro m name desc now key c hf hg hd
    simp [cmd_struggle, hf, hg, hd]
  · intro m name desc now now2
    cases hf : find_concept m name with
    | none => simp [cmd_struggle, hf]
    | some key =>
      cases hg : getConcept? m key with
      | none => simp [cmd_struggle, hf, hg]
      | some c =>
        by_cases hd : desc ∈ c.struggles
        · simp [cmd_struggle, hf, hg, hd]
        · have h1 : cmd_struggle m name desc now =
              (setConcept m key
                { c with struggles := c.struggles ++ [desc], last_reviewed := now },
               true) := by
            simp [cmd_struggle, hf, hg, hd]
          rw [h1]
          have hf2 : find_concept (setConcept m key
              { c with struggles := c.struggles ++ [desc], last_reviewed := now }) name
              = some key := by rw [find_concept_setConcept]; exact hf
          have hg2 : getConcept? (setConcept m key
              { c with struggles := c.struggles ++ [desc], last_reviewed := now }) key
              = some { c with struggles := c.struggles ++ [desc], last_reviewed := now } := by
            rw [getConcept?_setConcept_self, hg]; rfl
          have hd2 : desc ∈
              ({ c with struggles := c.struggles ++ [desc], last_reviewed := now } :
                Concept).struggles := by
            simp
          simp [cmd_struggle, hf2, hg2, hd2]

/-- Witness for C9 at a concrete duplicate. -/
theorem C9_witness :
    cmd_struggle
        ⟨"T0", "T0", "", [("X", ⟨50, "low", "T0", "T0", ["hard"], [], []⟩)], [], []⟩
        "X" "hard" "T1"
      = (⟨"T0", "T0", "", [("X", ⟨50, "low", "T0", "T0", ["hard"], [], []⟩)], [], []⟩,
         false) :=
  C9_duplicate_struggle_noop.1
    ⟨"T0", "T0", "", [("X", ⟨50, "low", "T0", "T0", ["hard"], [], []⟩)], [], []⟩
    "X" "hard" "T1" "X" ⟨50, "low", "T0", "T0", ["hard"], [], []⟩
    (by decide) (by decide) (by decide)

/-!
## C6 — which mutations refresh `last_reviewed`
-/

theorem getConcept?_append_new (m : StudentModel) (name : String) (c : Concept)
    (hf : find_concept m name = none) :
    getConcept? { m with concepts := m.concepts ++ [(name, c)] } name = some c := by
  have hf' : m.concepts.find? (fun kv => strLower kv.1 == strLower name) = none := by
    unfold find_concept at hf
    exact Option.map_eq_none'.mp hf
  have hall := List.find?_eq_none.mp hf'
  have hnone : m.concepts.find? (fun kv => kv.1 == name) = none := by
    rw [List.find?_eq_none]
    intro kv hkv hbeq
    apply hall kv hkv
    rw [eq_of_beq hbeq]
    exact beq_self_eq_true (strLower name)
  simp [getConcept?, List.find?_append, hnone, List.find?]

/-- C6 counterexample: `cmd_link` mutates the concept record (it appends to
`related_concepts`, and reports a save) yet leaves `last_reviewed` exactly
as it was — the handler never reads the clock at all.  This contradicts the
claim that every concept-mutating operation refreshes `last_reviewed`. -/
theorem C6_counterexample :
    (cmd_link ⟨"T0", "T0", "", [("Recursion", ⟨40, "low", "T0", "T0", [], [], []⟩)],
        [], []⟩ "Recursion" "Base Case")
      = (⟨"T0", "T0", "",
          [("Recursion", ⟨40, "low", "T0", "T0", [], [], ["Base Case"]⟩)], [], []⟩, true)
    ∧ (⟨40, "low", "T0", "T0", [], [], ["Base Case"]⟩ : Concept).last_reviewed = "T0"
    ∧ (⟨40, "low", "T0", "T0", [], [], ["Base Case"]⟩ : Concept).related_concepts
        ≠ (⟨40, "low", "T0", "T0", [], [], []⟩ : Concept).related_concepts := by
  refine ⟨by decide, rfl, by decide⟩

/-- C6 amended: `cmd_add`, `cmd_update`, `cmd_struggle`, `cmd_breakthrough`
and the session-end batch items refresh `last_reviewed` on the concept they
mutate, and the misconception-only operations do not touch the concept
records — but `cmd_link` and `cmd_unlink` mutate `related_concepts` while
leaving every concept's `last_reviewed` unchanged. -/
theorem C6_last_reviewed_refresh :
    (∀ (m : StudentModel) (n : String) (v : Int) (cf rel now : String),
        (cmd_add m n v cf rel now).2 = true →
        (getConcept? (cmd_add m n v cf rel now).1 n).map Concept.last_reviewed
          = some now)
    ∧ (∀ (m : StudentModel) (n : String) (mv : Option Int) (cf : Option String)
          (now key : String), find_concept m n = some key →
        (cmd_update m n mv cf now).2 = true →
        (getConcept? (cmd_update m n mv cf now).1 key).map Concept.last_reviewed
          = some now)
    ∧ (∀ (m : StudentModel) (n d now key : String), find_concept m n = some key →
        (cmd_struggle m n d now).2 = true →
        (getConcept? (cmd_struggle m n d now).1 key).map Concept.last_reviewed
          = some now)
    ∧ (∀ (m : StudentModel) (n d now key : String), find_concept m n = some key →
        (cmd_breakthrough m n d now).2 = true →
        (getConcept? (cmd_breakthrough m n d now).1 key).map Concept.last_reviewed
          = some now)
    ∧ (∀ (m : StudentModel) (n r k : String),
        (getConcept? (cmd_link m n r).1 k).map Concept.last_reviewed
          = (getConcept? m k).map Concept.last_reviewed)
    ∧ (∀ (m : StudentModel) (n r k : String),
        (getConcept? (cmd_unlink m n r).1 k).map Concept.last_reviewed
          = (getConcept? m k).map Concept.last_reviewed)
    ∧ (∀ (m : StudentModel) (n b c now : String),
        (cmd_misconception_add m n b c now).1.concepts = m.concepts)
    ∧ (∀ (m : StudentModel) (n : String) (i : Int) (now : String)
          (r : StudentModel × Bool),
        cmd_misconception_resolve m n i now = .ok r → r.1.concepts = m.concepts)
    ∧ (∀ (m : StudentModel) (s now : String),
        (processUpdate m s now).1 = m ∨
          ∃ key, (getConcept? (processUpdate m s now).1 key).map Concept.last_reviewed
            = some now)
    ∧ (∀ (m : StudentModel) (s now : String),
        (processStruggle m s now).1 = m ∨
          ∃ key, (getConcept? (processStruggle m s now).1 key).map Concept.last_reviewed
            = some now)
    ∧ (∀ (m : StudentModel) (s now : String),
        (processBreakthrough m s now).1 = m ∨
          ∃ key, (getConcept? (processBreakthrough m s now).1 key).map
              Concept.last_reviewed = some now) := by
  refine ⟨?_, ?_, ?_, ?_, ?_, ?_, ?_, ?_, ?_, ?_, ?_⟩
  · -- cmd_add
    intro m n v cf rel now hs
    cases hf : (find_concept m n).isSome with
    | true => simp [cmd_add, hf] at hs
    | false =>
      cases hb : (decide (0 ≤ v) && decide (v ≤ 100)) with
      | false => simp [cmd_add, hf, hb] at hs
      | true =>
        cases hc : validConfidence cf with
        | false => simp [cmd_add, hf, hb, hc] at hs
        | true =>
          have hfn : find_concept m n = none := by
            cases hfc : find_concept m n with
            | none => rfl
            | some k => rw [hfc] at hf; simp at hf
          simp [cmd_add, hf, hb, hc, getConcept?_append_new _ _ _ hfn]
  · -- cmd_update
    intro m n mv cf now key hf hs
    rcases getConcept?_of_find_concept m n key hf with ⟨c0, hg⟩
    cases mv with
    | some v =>
      cases hb : (decide (0 ≤ v) && decide (v ≤ 100)) with
      | false => simp [cmd_update, hf, hg, hb] at hs
      | true =>
        cases cf with
        | some s =>
          cases hcs : validConfidence s with
          | false => simp [cmd_update, hf, hg, hb, hcs] at hs
          | true => simp [cmd_update, hf, hg, hb, hcs, getConcept?_setConcept_self]
        | none => simp [cmd_update, hf, hg, hb, getConcept?_setConcept_self]
    | none =>
      cases cf with
      | some s =>
        cases hcs : validConfidence s with
        | false => simp [cmd_update, hf, hg, hcs] at hs
        | true => simp [cmd_update, hf, hg, hcs, getConcept?_setConcept_self]
      | none => simp [cmd_update, hf, hg] at hs
  · -- cmd_struggle
    intro m n d now key hf hs
    rcases getConcept?_of_find_concept m n key hf with ⟨c0, hg⟩
    by_cases hd : d ∈ c0.struggles
    · simp [cmd_struggle, hf, hg, hd] at hs
    · simp [cmd_struggle, hf, hg, hd, getConcept?_setConcept_self]
  · -- cmd_breakthrough
    intro m n d now key hf hs
    rcases getConcept?_of_find_concept m n key hf with ⟨c0, hg⟩
    by_cases hd : d ∈ c0.breakthroughs
    · simp [cmd_breakthrough, hf, hg, hd] at hs
    · simp [cmd_breakthrough, hf, hg, hd, getConcept?_setConcept_self]
  · -- cmd_link
    intro m n r k
    cases hf : find_concept m n with
    | none => simp [cmd_link, hf]
    | some key =>
      cases hg : getConcept? m key with
      | none => simp [cmd_link, hf, hg]
      | some c =>
        set linkName := (find_concept m r).getD r with hln
        cases hdup : c.related_concepts.any
            (fun x => strLower x == strLower linkName) with
        | true => simp [cmd_link, hf, hg, ← hln, hdup]
        | false =>
          by_cases hk : k = key
          · subst hk
            simp [cmd_link, hf, hg, ← hln, hdup, getConcept?_setConcept_self, hg]
          · simp [cmd_link, hf, hg, ← hln, hdup,
              getConcept?_setConcept_other m key k _ hk]
  · -- cmd_unlink
    intro m n r k
    cases hf : find_concept m n with
    | none => simp [cmd_unlink, hf]
    | some key =>
      cases hg : getConcept? m key with
      | none => simp [cmd_unlink, hf, hg]
      | some c =>
        cases hr : c.related_concepts.find? (fun x => strLower x == strLower r) with
        | none => simp [cmd_unlink, hf, hg, hr]
        | some removed =>
          by_cases hk : k = key
          · subst hk
            simp [cmd_unlink, hf, hg, hr, getConcept?_setConcept_self, hg]
          · simp [cmd_unlink, hf, hg, hr,
              getConcept?_setConcept_other m key k _ hk]
  · -- cmd_misconception_add
    intro m n b c now
    cases hf : find_concept m n with
    | none => simp [cmd_misconception_add, hf]
    | some key =>
      cases hdup : m.misconceptions.any (fun mc =>
          strLower mc.concept == strLower key && strLower mc.belief == strLower b) with
      | true => simp [cmd_misconception_add, hf, hdup]
      | false => simp [cmd_misconception_add, hf, hdup]
  · -- cmd_misconception_resolve
    intro m n i now r hres
    cases hf : find_concept m n with
    | none =>
      simp [cmd_misconception_resolve, hf] at hres
      subst hres
      rfl
    | some key =>
      by_cases hemp : (concept_misconceptions m key).isEmpty
      · simp [cmd_misconception_resolve, hf, hemp] at hres
        subst hres
        rfl
      · by_cases hge : ((concept_misconceptions m key).length : Int) ≤ i
        · simp [cmd_misconception_resolve, hf, hemp, hge] at hres
          subst hres
          rfl
        · cases hpg : pyListGet (concept_misconceptions m key) i with
          | none => simp [cmd_misconception_resolve, hf, hemp, hge, hpg] at hres
          | some im =>
            simp [cmd_misconception_resolve, hf, hemp, hge, hpg] at hres
            subst hres
            rfl
  · -- processUpdate
    intro m s now
    cases hp : pySplit ':' s with
    | nil => left; simp [processUpdate, hp]
    | cons a t =>
      rcases t with _ | ⟨b, t2⟩
      · left; simp [processUpdate, hp]
      · rcases t2 with _ | ⟨c, t3⟩
        · left; simp [processUpdate, hp]
        · rcases t3 with _ | _
          · cases hi : pyInt b with
            | none => left; simp [processUpdate, hp, hi]
            | some v =>
              cases hb : (decide (0 ≤ v) && decide (v ≤ 100)) with
              | false => left; simp [processUpdate, hp, hi, hb]
              | true =>
                cases hc : validConfidence c with
                | false => left; simp [processUpdate, hp, hi, hb, hc]
                | true =>
                  cases hf : find_concept m a with
                  | none => left; simp [processUpdate, hp, hi, hb, hc, hf]
                  | some key =>
                    cases hg : getConcept? m key with
                    | none => left; simp [processUpdate, hp, hi, hb, hc, hf, hg]
                    | some c0 =>
                      right
                      exact ⟨key, by
                        simp [processUpdate, hp, hi, hb, hc, hf, hg,
                          getConcept?_setConcept_self]⟩
          · left; simp [processUpdate, hp]
  · -- processStruggle
    intro m s now
    cases hcol : strContainsChar s ':' with
    | false => left; simp [processStruggle, hcol]
    | true =>
      cases hf : find_concept m (splitOnce s).1 with
      | none => left; simp [processStruggle, hcol, hf]
      | some key =>
        cases hg : getConcept? m key with
        | none => left; simp [processStruggle, hcol, hf, hg]
        | some c =>
          by_cases hd : (splitOnce s).2 ∈ c.struggles
          · left; simp [processStruggle, hcol, hf, hg, hd]
          · right
            exact ⟨key, by
              simp [processStruggle, hcol, hf, hg, hd, getConcept?_setConcept_self]⟩
  · -- processBreakthrough
    intro m s now
    cases hcol : strContainsChar s ':' with
    | false => left; simp [processBreakthrough, hcol]
    | true =>
      cases hf : find_concept m (splitOnce s).1 with
      | none => left; simp [processBreakthrough, hcol, hf]
      | some key =>
        cases hg : getConcept? m key with
        | none => left; simp [processBreakthrough, hcol, hf, hg]
        | some c =>
          by_cases hd : (splitOnce s).2 ∈ c.breakthroughs
          · left; simp [processBreakthrough, hcol, hf, hg, hd]
          · right
            exact ⟨key, by
              simp [processBreakthrough, hcol, hf, hg, hd, getConcept?_setConcept_self]⟩

/-!
## C7 / C10 — misconception resolve indexing
-/

theorem enumFrom_filter_map_fst (p : Misconception → Bool) :
    ∀ (l : List Misconception) (n : Nat),
    ((l.enumFrom n).filter (fun im => p im.2)).map Prod.fst
      = ((List.range l.length).filter (fun i =>
          match l.get? i with
          | some mc => p mc
          | none => false)).map (fun i => i + n)
  | [], _ => rfl
  | mc :: rest, n => by
    show (((n, mc) :: rest.enumFrom (n + 1)).filter _).map Prod.fst = _
    rw [List.length_cons, List.range_succ_eq_map]
    cases hp : p mc with
    | true =>
      rw [List.filter_cons_of_pos (by simpa using hp),
          List.filter_cons_of_pos (by simpa using hp)]
      simp only [List.map_cons, List.filter_map, List.map_map]
      rw [enumFrom_filter_map_fst p rest (n + 1)]
      rw [List.filter_congr (fun i _ => (rfl :
        ((fun i => match (mc :: rest).get? i with
          | some mc => p mc
          | none => false) ∘ Nat.succ) i = _))]
      rw [List.map_congr_left (fun i _ => (by
        show Nat.succ i + n = i + (n + 1)
        omega :
        ((fun i => i + n) ∘ Nat.succ) i = i + (n + 1)))]
      simp
    | false =>
      rw [List.filter_cons_of_neg (by simpa using hp),
          List.filter_cons_of_neg (by simpa using hp)]
      simp only [List.filter_map, List.map_map]
      rw [enumFrom_filter_map_fst p rest (n + 1)]
      rw [List.filter_congr (fun i _ => (rfl :
        ((fun i => match (mc :: rest).get? i with
          | some mc => p mc
          | none => false) ∘ Nat.succ) i = _))]
      rw [List.map_congr_left (fun i _ => (by
        show Nat.succ i + n = i + (n + 1)
        omega :
        ((fun i => i + n) ∘ Nat.succ) i = i + (n + 1)))]

theorem concept_misconceptions_map_fst (m : StudentModel) (key : String) :
    (concept_misconceptions m key).map Prod.fst = unresolvedPositions m key := by
  unfold concept_misconceptions unresolvedPositions List.enum
  rw [enumFrom_filter_map_fst
    (fun mc => strLower mc.concept == strLower key && !mc.resolved) m.misconceptions 0]
  simp

theorem mem_concept_misconceptions (m : StudentModel) (key : String)
    (im : Nat × Misconception) (h : im ∈ concept_misconceptions m key) :
    m.misconceptions.get? im.1 = some im.2
      ∧ strLower im.2.concept = strLower key ∧ im.2.resolved = false := by
  rcases List.mem_filter.mp h with ⟨henum, hpred⟩
  have hget : m.misconceptions.get? im.1 = some im.2 := by
    have := List.mem_enum_iff_get?.mp henum
    simpa using this
  rcases Bool.and_eq_true_iff.mp hpred with ⟨h1, h2⟩
  refine ⟨hget, eq_of_beq h1, ?_⟩
  cases hres : im.2.resolved with
  | false => rfl
  | true => rw [hres] at h2; simp at h2

/-- C7: the resolve index is interpreted over the subsequence of unresolved
misconceptions of the (case-insensitively matched) concept, not over the raw
stored sequence: the positions the handler indexes into are exactly
`unresolvedPositions`; a valid index marks exactly the idx-th unresolved
entry resolved (setting `resolved` and `date_resolved`) and leaves every
other entry unchanged; an index at or beyond the number of unresolved
entries is rejected without mutating the document; and on the stored
sequence [resolved, unresolved-A, unresolved-B] index 0 resolves
unresolved-A (raw position 1) while index 2 is rejected. -/
theorem C7_resolve_unresolved_scope :
    (∀ (m : StudentModel) (name : String) (idx : Int) (now key : String),
        find_concept m name = some key →
        ((concept_misconceptions m key).length : Int) ≤ idx →
        cmd_misconception_resolve m name idx now = .ok (m, false))
    ∧ (∀ (m : StudentModel) (key : String),
        (concept_misconceptions m key).map Prod.fst = unresolvedPositions m key)
    ∧ (∀ (m : StudentModel) (name : String) (idx : Int) (now key : String),
        find_concept m name = some key → 0 ≤ idx →
        idx < ((concept_misconceptions m key).length : Int) →
        ∃ im : Nat × Misconception,
          (unresolvedPositions m key).get? idx.toNat = some im.1
          ∧ m.misconceptions.get? im.1 = some im.2
          ∧ im.2.resolved = false ∧ strLower im.2.concept = strLower key
          ∧ cmd_misconception_resolve m name idx now
              = .ok (resolveAt m im.1 im.2 now, true)
          ∧ ∀ j, j ≠ im.1 →
              (resolveAt m im.1 im.2 now).misconceptions.get? j
                = m.misconceptions.get? j)
    ∧ cmd_misconception_resolve
        ⟨"T0", "T0", "", [("X", ⟨50, "low", "T0", "T0", [], [], []⟩)],
          [⟨"X", "b0", "c0", "T0", true, some "T0"⟩,
           ⟨"X", "bA", "cA", "T0", false, none⟩,
           ⟨"X", "bB", "cB", "T0", false, none⟩], []⟩ "X" 0 "T1"
        = .ok (⟨"T0", "T0", "", [("X", ⟨50, "low", "T0", "T0", [], [], []⟩)],
          [⟨"X", "b0", "c0", "T0", true, some "T0"⟩,
           ⟨"X", "bA", "cA", "T0", true, some "T1"⟩,
           ⟨"X", "bB", "cB", "T0", false, none⟩], []⟩, true)
    ∧ cmd_misconception_resolve
        ⟨"T0", "T0", "", [("X", ⟨50, "low", "T0", "T0", [], [], []⟩)],
          [⟨"X", "b0", "c0", "T0", true, some "T0"⟩,
           ⟨"X", "bA", "cA", "T0", false, none⟩,
           ⟨"X", "bB", "cB", "T0", false, none⟩], []⟩ "X" 2 "T1"
        = .ok (⟨"T0", "T0", "", [("X", ⟨50, "low", "T0", "T0", [], [], []⟩)],
          [⟨"X", "b0", "c0", "T0", true, some "T0"⟩,
           ⟨"X", "bA", "cA", "T0", false, none⟩,
           ⟨"X", "bB", "cB", "T0", false, none⟩], []⟩, false) := by
  refine ⟨?_, concept_misconceptions_map_fst, ?_, rfl, rfl⟩
  · intro m name idx now key hf hge
    cases hemp : (concept_misconceptions m key).isEmpty with
    | true => simp [cmd_misconception_resolve, hf, hemp]
    | false => simp [cmd_misconception_resolve, hf, hemp, hge]
  · intro m name idx now key hf h0 hlt
    have hlen : 0 < (concept_misconceptions m key).length := by omega
    have hemp : (concept_misconceptions m key).isEmpty = false := by
      cases hc : concept_misconceptions m key with
      | nil => rw [hc] at hlen; simp at hlen
      | cons a t => rfl
    have hnotle : ¬(((concept_misconceptions m key).length : Int) ≤ idx) :=
      not_le.mpr hlt
    have hidx : idx.toNat < (concept_misconceptions m key).length := by omega
    have him : (concept_misconceptions m key).get? idx.toNat
        = some ((concept_misconceptions m key).get ⟨idx.toNat, hidx⟩) :=
      List.get?_eq_get hidx
    have him2 : (concept_misconceptions m key)[idx.toNat]?
        = some ((concept_misconceptions m key).get ⟨idx.toNat, hidx⟩) := by
      rw [← List.get?_eq_getElem?]
      exact him
    rcases mem_concept_misconceptions m key _
      (List.get_mem (concept_misconceptions m key) idx.toNat hidx) with
      ⟨hget, hconc, hres⟩
    refine ⟨(concept_misconceptions m key).get ⟨idx.toNat, hidx⟩,
      ?_, hget, hres, hconc, ?_, ?_⟩
    · rw [← concept_misconceptions_map_fst, List.get?_map, him]
      rfl
    · simp [cmd_misconception_resolve, hf, hemp, hnotle, pyListGet, h0, him2,
        resolveAt]
    · intro j hj
      exact List.get?_set_ne _ _ (Ne.symm hj)

/-- Witness for C7 at the concrete in-range resolve of the mixed
resolved/unresolved sequence. -/
theorem C7_witness :
    ∃ im : Nat × Misconception,
      (unresolvedPositions
          ⟨"T0", "T0", "", [("X", ⟨50, "low", "T0", "T0", [], [], []⟩)],
            [⟨"X", "b0", "c0", "T0", true, some "T0"⟩,
             ⟨"X", "bA", "cA", "T0", false, none⟩,
             ⟨"X", "bB", "cB", "T0", false, none⟩], []⟩ "X").get? (Int.toNat 0)
          = some im.1
      ∧ (⟨"T0", "T0", "", [("X", ⟨50, "low", "T0", "T0", [], [], []⟩)],
            [⟨"X", "b0", "c0", "T0", true, some "T0"⟩,
             ⟨"X", "bA", "cA", "T0", false, none⟩,
             ⟨"X", "bB", "cB", "T0", false, none⟩], []⟩ :
            StudentModel).misconceptions.get? im.1 = some im.2
      ∧ im.2.resolved = false ∧ strLower im.2.concept = strLower "X"
      ∧ cmd_misconception_resolve
            ⟨"T0", "T0", "", [("X", ⟨50, "low", "T0", "T0", [], [], []⟩)],
              [⟨"X", "b0", "c0", "T0", true, some "T0"⟩,
               ⟨"X", "bA", "cA", "T0", false, none⟩,
               ⟨"X", "bB", "cB", "T0", false, none⟩], []⟩ "X" 0 "T1"
          = .ok (resolveAt
              ⟨"T0", "T0", "", [("X", ⟨50, "low", "T0", "T0", [], [], []⟩)],
                [⟨"X", "b0", "c0", "T0", true, some "T0"⟩,
                 ⟨"X", "bA", "cA", "T0", false, none⟩,
                 ⟨"X", "bB", "cB", "T0", false, none⟩], []⟩ im.1 im.2 "T1", true)
      ∧ ∀ j, j ≠ im.1 →
          (resolveAt
              ⟨"T0", "T0", "", [("X", ⟨50, "low", "T0", "T0", [], [], []⟩)],
                [⟨"X", "b0", "c0", "T0", true, some "T0"⟩,
                 ⟨"X", "bA", "cA", "T0", false, none⟩,
                 ⟨"X", "bB", "cB", "T0", false, none⟩], []⟩ im.1 im.2
              "T1").misconceptions.get? j
            = (⟨"T0", "T0", "", [("X", ⟨50, "low", "T0", "T0", [], [], []⟩)],
              [⟨"X", "b0", "c0", "T0", true, some "T0"⟩,
               ⟨"X", "bA", "cA", "T0", false, none⟩,
               ⟨"X", "bB", "cB", "T0", false, none⟩], []⟩ :
              StudentModel).misconceptions.get? j :=
  C7_resolve_unresolved_scope.2.2.1
    ⟨"T0", "T0", "", [("X", ⟨50, "low", "T0", "T0", [], [], []⟩)],
      [⟨"X", "b0", "c0", "T0", true, some "T0"⟩,
       ⟨"X", "bA", "cA", "T0", false, none⟩,
       ⟨"X", "bB", "cB", "T0", false, none⟩], []⟩
    "X" 0 "T1" "X" (by decide) (by decide) (by decide)

/-- C10 counterexample: with a single unresolved misconception, the negative
index −2 passes the `index >= len` guard but the subsequent subscript
raises an uncaught `IndexError` — the operation does not resolve anything,
contradicting the claim that every negative index resolves an unresolved
misconception by negative indexing. -/
theorem C10_counterexample :
    cmd_misconception_resolve
        ⟨"T0", "T0", "", [("X", ⟨50, "low", "T0", "T0", [], [], []⟩)],
          [⟨"X", "b1", "c1", "T0", false, none⟩], []⟩ "X" (-2) "T1"
      = .error .indexError := rfl

/-- C10 amended: a negative index is never rejected by the range guard;
when it is within Python's negative-indexing range (−count ≤ idx ≤ −1) the
handler resolves the (count + idx)-th unresolved misconception, and when it
is below −count the list subscript raises an uncaught `IndexError` instead
of a rejection. -/
theorem C10_negative_index :
    (∀ (m : StudentModel) (name : String) (idx : Int) (now key : String),
        find_concept m name = some key → idx < 0 →
        -((concept_misconceptions m key).length : Int) ≤ idx →
        ∃ im : Nat × Misconception,
          (concept_misconceptions m key).get?
              (((concept_misconceptions m key).length : Int) + idx).toNat = some im
          ∧ cmd_misconception_resolve m name idx now
            = .ok (resolveAt m im.1 im.2 now, true))
    ∧ (∀ (m : StudentModel) (name : String) (idx : Int) (now key : String),
        find_concept m name = some key →
        (concept_misconceptions m key).isEmpty = false →
        idx < -((concept_misconceptions m key).length : Int) →
        cmd_misconception_resolve m name idx now = .error .indexError) := by
  constructor
  · intro m name idx now key hf hneg hge
    have hlen : 0 < (concept_misconceptions m key).length := by omega
    have hemp : (concept_misconceptions m key).isEmpty = false := by
      cases hc : concept_misconceptions m key with
      | nil => rw [hc] at hlen; simp at hlen
      | cons a t => rfl
    have hnotle : ¬(((concept_misconceptions m key).length : Int) ≤ idx) := by omega
    have hidx : (((concept_misconceptions m key).length : Int) + idx).toNat
        < (concept_misconceptions m key).length := by omega
    have him : (concept_misconceptions m key).get?
          (((concept_misconceptions m key).length : Int) + idx).toNat
        = some ((concept_misconceptions m key).get ⟨_, hidx⟩) :=
      List.get?_eq_get hidx
    have him2 : (concept_misconceptions m key)[
        (((concept_misconceptions m key).length : Int) + idx).toNat]?
        = some ((concept_misconceptions m key).get ⟨_, hidx⟩) := by
      rw [← List.get?_eq_getElem?]
      exact him
    refine ⟨_, him, ?_⟩
    have hnot0 : ¬(0 ≤ idx) := by omega
    have hj : (0 : Int) ≤ ((concept_misconceptions m key).length : Int) + idx := by
      omega
    simp [cmd_misconception_resolve, hf, hemp, hnotle, pyListGet, hnot0, hj, him2,
      resolveAt]
  · intro m name idx now key hf hemp hlt
    have hnotle : ¬(((concept_misconceptions m key).length : Int) ≤ idx) := by omega
    have hnot0 : ¬(0 ≤ idx) := by omega
    have hj : ¬((0 : Int) ≤ ((concept_misconceptions m key).length : Int) + idx) := by
      omega
    simp [cmd_misconception_resolve, hf, hemp, hnotle, pyListGet, hnot0, hj]

/-- Witness for C10 at the concrete in-range negative resolve. -/
theorem C10_witness :
    ∃ im : Nat × Misconception,
      (concept_misconceptions
          ⟨"T0", "T0", "", [("X", ⟨50, "low", "T0", "T0", [], [], []⟩)],
            [⟨"X", "b1", "c1", "T0", false, none⟩], []⟩ "X").get?
          (((concept_misconceptions
              ⟨"T0", "T0", "", [("X", ⟨50, "low", "T0", "T0", [], [], []⟩)],
                [⟨"X", "b1", "c1", "T0", false, none⟩], []⟩ "X").length : Int)
            + (-1)).toNat = some im
      ∧ cmd_misconception_resolve
            ⟨"T0", "T0", "", [("X", ⟨50, "low", "T0", "T0", [], [], []⟩)],
              [⟨"X", "b1", "c1", "T0", false, none⟩], []⟩ "X" (-1) "T1"
          = .ok (resolveAt
              ⟨"T0", "T0", "", [("X", ⟨50, "low", "T0", "T0", [], [], []⟩)],
                [⟨"X", "b1", "c1", "T0", false, none⟩], []⟩ im.1 im.2 "T1", true) :=
  C10_negative_index.1
    ⟨"T0", "T0", "", [("X", ⟨50, "low", "T0", "T0", [], [], []⟩)],
      [⟨"X", "b1", "c1", "T0", false, none⟩], []⟩
    "X" (-1) "T1" "X" (by decide) (by decide) (by decide)

/-!
## C4 — session-end batch discipline
-/

theorem runItems_counts (step : StudentModel → String → String → StudentModel × Bool)
    (now : String) :
    ∀ (items : List String) (m : StudentModel) (e g : Nat),
    (runItems step now items (m, e, g)).2.1 + (runItems step now items (m, e, g)).2.2
      = e + g + items.length
  | [], m, e, g => by simp [runItems]
  | item :: rest, m, e, g => by
    cases hs : (step m item now).2 with
    | true =>
      have hrec := runItems_counts step now rest (step m item now).1 e (g + 1)
      simp [runItems, hs]
      omega
    | false =>
      have hrec := runItems_counts step now rest (step m item now).1 (e + 1) g
      simp [runItems, hs]
      omega

theorem runItems_counts_acc (step : StudentModel → String → String → StudentModel × Bool)
    (now : String) (items : List String) (acc : StudentModel × Nat × Nat) :
    (runItems step now items acc).2.1 + (runItems step now items acc).2.2
      = acc.2.1 + acc.2.2 + items.length := by
  rcases acc with ⟨m, e, g⟩
  exact runItems_counts step now items m e g

theorem processUpdate_fail (m : StudentModel) (s now : String)
    (h : (processUpdate m s now).2 = false) : processUpdate m s now = (m, false) := by
  rcases hp : pySplit ':' s with _ | ⟨a, _ | ⟨b, _ | ⟨c, _ | ⟨d, t⟩⟩⟩⟩
  · simp [processUpdate, hp]
  · simp [processUpdate, hp]
  · simp [processUpdate, hp]
  · cases hi : pyInt b with
    | none => simp [processUpdate, hp, hi]
    | some v =>
      cases hb : (decide (0 ≤ v) && decide (v ≤ 100)) with
      | false => simp [processUpdate, hp, hi, hb]
      | true =>
        cases hc : validConfidence c with
        | false => simp [processUpdate, hp, hi, hb, hc]
        | true =>
          cases hf : find_concept m a with
          | none => simp [processUpdate, hp, hi, hb, hc, hf]
          | some key =>
            cases hg : getConcept? m key with
            | none => simp [processUpdate, hp, hi, hb, hc, hf, hg]
            | some c0 => simp [processUpdate, hp, hi, hb, hc, hf, hg] at h
  · simp [processUpdate, hp]

theorem processStruggle_fail (m : StudentModel) (s now : String)
    (h : (processStruggle m s now).2 = false) : processStruggle m s now = (m, false) := by
  cases hcol : strContainsChar s ':' with
  | false => simp [processStruggle, hcol]
  | true =>
    cases hf : find_concept m (splitOnce s).1 with
    | none => simp [processStruggle, hcol, hf]
    | some key =>
      cases hg : getConcept? m key with
      | none => simp [processStruggle, hcol, hf, hg]
      | some c =>
        by_cases hd : (splitOnce s).2 ∈ c.struggles
        · simp [processStruggle, hcol, hf, hg, hd] at h
        · simp [processStruggle, hcol, hf, hg, hd] at h

theorem processBreakthrough_fail (m : StudentModel) (s now : String)
    (h : (processBreakthrough m s now).2 = false) :
    processBreakthrough m s now = (m, false) := by
  cases hcol : strContainsChar s ':' with
  | false => simp [processBreakthrough, hcol]
  | true =>
    cases hf : find_concept m (splitOnce s).1 with
    | none => simp [processBreakthrough, hcol, hf]
    | some key =>
      cases hg : getConcept? m key with
      | none => simp [processBreakthrough, hcol, hf, hg]
      | some c =>
        by_cases hd : (splitOnce s).2 ∈ c.breakthroughs
        · simp [processBreakthrough, hcol, hf, hg, hd] at h
        · simp [processBreakthrough, hcol, hf, hg, hd] at h

/-- C4: the session-end batch processes every requested item — each item
contributes exactly one entry, to `errors` if it failed and to `changes`
otherwise, so the two counts always sum to the number of items; a failed
item leaves the document untouched; `save_model` is called exactly when at
least one change entry was produced; and the concrete batch with the
invalid "BadConcept:150:medium" and the valid "GoodConcept:80:high"
applies only the valid item (mastery 80, confidence high, refreshed
`last_reviewed`) and reports exactly one error plus one change, with one
save. -/
theorem C4_session_end_batch :
    (∀ (m : StudentModel) (us ss bs : List String) (now : String),
        (cmd_session_end m us ss bs now).errors
            + (cmd_session_end m us ss bs now).changes
          = us.length + ss.length + bs.length)
    ∧ (∀ (m : StudentModel) (us ss bs : List String) (now : String),
        (cmd_session_end m us ss bs now).saveCalled = true
          ↔ 0 < (cmd_session_end m us ss bs now).changes)
    ∧ (∀ (m : StudentModel) (s now : String),
        ((processUpdate m s now).2 = false → processUpdate m s now = (m, false))
        ∧ ((processStruggle m s now).2 = false → processStruggle m s now = (m, false))
        ∧ ((processBreakthrough m s now).2 = false →
            processBreakthrough m s now = (m, false)))
    ∧ cmd_session_end
        ⟨"T0", "T0", "", [("GoodConcept", ⟨50, "low", "T0", "T0", [], [], []⟩)], [], []⟩
        ["BadConcept:150:medium", "GoodConcept:80:high"] [] [] "T1"
      = ⟨⟨"T0", "T0", "",
          [("GoodConcept", ⟨80, "high", "T0", "T1", [], [], []⟩)], [], []⟩, 1, 1, true⟩ := by
  refine ⟨?_, ?_, ?_, by decide⟩
  · intro m us ss bs now
    have h1 : (runItems processUpdate now us (m, 0, 0)).2.1
          + (runItems processUpdate now us (m, 0, 0)).2.2
        = 0 + 0 + us.length :=
      runItems_counts_acc processUpdate now us (m, 0, 0)
    have h2 := runItems_counts_acc processStruggle now ss
      (runItems processUpdate now us (m, 0, 0))
    have h3 := runItems_counts_acc processBreakthrough now bs
      (runItems processStruggle now ss (runItems processUpdate now us (m, 0, 0)))
    simp only [cmd_session_end]
    omega
  · intro m us ss bs now
    show ((cmd_session_end m us ss bs now).changes != 0) = true ↔ _
    rcases hn : (cmd_session_end m us ss bs now).changes with _ | k
    · simp [hn]
    · simp [hn]
  · exact fun m s now =>
      ⟨processUpdate_fail m s now, processStruggle_fail m s now,
       processBreakthrough_fail m s now⟩

/-- Witness for C4: a batch whose single struggle item names an unknown
concept fails and leaves the document unchanged. -/
theorem C4_witness :
    processStruggle ⟨"T0", "T0", "", [], [], []⟩ "Ghost:desc" "T1"
      = (⟨"T0", "T0", "", [], [], []⟩, false) :=
  (C4_session_end_batch.2.2.1 ⟨"T0", "T0", "", [], [], []⟩ "Ghost:desc" "T1").2.1
    (by decide)

/-- Witness for C6 at a concrete struggle that refreshes `last_reviewed`. -/
theorem C6_witness :
    (getConcept?
        (cmd_struggle ⟨"T0", "T0", "", [("X", ⟨50, "low", "T0", "T0", [], [], []⟩)],
          [], []⟩ "X" "hard" "T9").1 "X").map Concept.last_reviewed = some "T9" :=
  C6_last_reviewed_refresh.2.2.1
    ⟨"T0", "T0", "", [("X", ⟨50, "low", "T0", "T0", [], [], []⟩)], [], []⟩
    "X" "hard" "T9" "X" (by decide) (by decide)

/-!
## C1 / C2 / C3 — persistence layer
-/

theorem validate_obj_keys (bf : List (String × Json))
    (hv : validate_model (.obj bf) = .ok true) :
    bf.any (fun kv => kv.1 == "metadata") = true
    ∧ bf.any (fun kv => kv.1 == "concepts") = true
    ∧ bf.any (fun kv => kv.1 == "sessions") = true := by
  refine ⟨?_, ?_, ?_⟩
  · cases h : bf.any (fun kv => kv.1 == "metadata") with
    | true => rfl
    | false => simp [validate_model, pyIn, Bind.bind, Except.bind, Pure.pure, Except.pure, h] at hv
  · cases h1 : bf.any (fun kv => kv.1 == "metadata") with
    | false => simp [validate_model, pyIn, Bind.bind, Except.bind, Pure.pure, Except.pure, h1] at hv
    | true =>
      cases h : bf.any (fun kv => kv.1 == "concepts") with
      | true => rfl
      | false => simp [validate_model, pyIn, Bind.bind, Except.bind, Pure.pure, Except.pure, h1, h] at hv
  · cases h1 : bf.any (fun kv => kv.1 == "metadata") with
    | false => simp [validate_model, pyIn, Bind.bind, Except.bind, Pure.pure, Except.pure, h1] at hv
    | true =>
      cases h2 : bf.any (fun kv => kv.1 == "concepts") with
      | false => simp [validate_model, pyIn, Bind.bind, Except.bind, Pure.pure, Except.pure, h1, h2] at hv
      | true =>
        cases h : bf.any (fun kv => kv.1 == "sessions") with
        | true => rfl
        | false => simp [validate_model, pyIn, Bind.bind, Except.bind, Pure.pure, Except.pure, h1, h2, h] at hv

theorem validate_metadata_keys (bf mfs : List (String × Json))
    (hv : validate_model (.obj bf) = .ok true)
    (hmd : pySubscript (.obj bf) "metadata" = .ok (.obj mfs)) :
    mfs.any (fun kv => kv.1 == "created") = true
    ∧ mfs.any (fun kv => kv.1 == "last_updated") = true := by
  obtain ⟨h1, h2, h3⟩ := validate_obj_keys bf hv
  cases hfind : bf.find? (fun kv => kv.1 == "metadata") with
  | none => simp [pySubscript, hfind] at hmd
  | some kv =>
    have hkv2 : kv.2 = .obj mfs := by simpa [pySubscript, hfind] using hmd
    constructor
    · cases h : mfs.any (fun kv => kv.1 == "created") with
      | true => rfl
      | false =>
        simp [validate_model, pyIn, Bind.bind, Except.bind, Pure.pure, Except.pure, pySubscript, h1, h2, h3, hfind, hkv2, h] at hv
    · cases hc : mfs.any (fun kv => kv.1 == "created") with
      | false =>
        simp [validate_model, pyIn, Bind.bind, Except.bind, Pure.pure, Except.pure, pySubscript, h1, h2, h3, hfind, hkv2, hc] at hv
      | true =>
        cases h : mfs.any (fun kv => kv.1 == "last_updated") with
        | true => rfl
        | false =>
          simp [validate_model, pyIn, Bind.bind, Except.bind, Pure.pure, Except.pure, pySubscript, h1, h2, h3, hfind, hkv2, hc, h] at hv

theorem validate_refresh (bf mfs : List (String × Json)) (now : String)
    (hv : validate_model (.obj bf) = .ok true)
    (hmd : pySubscript (.obj bf) "metadata" = .ok (.obj mfs)) :
    validate_model (refreshLastUpdated bf mfs now) = .ok true := by
  obtain ⟨h1, h2, h3⟩ := validate_obj_keys bf hv
  obtain ⟨h4, h5⟩ := validate_metadata_keys bf mfs hv hmd
  have e1 : (setField bf "metadata"
      (.obj (setField mfs "last_updated" (.str now)))).any
      (fun kv => kv.1 == "metadata") = true := by
    rw [any_setField, h1]; rfl
  have e2 : (setField bf "metadata"
      (.obj (setField mfs "last_updated" (.str now)))).any
      (fun kv => kv.1 == "concepts") = true := by
    rw [any_setField, h2]; rfl
  have e3 : (setField bf "metadata"
      (.obj (setField mfs "last_updated" (.str now)))).any
      (fun kv => kv.1 == "sessions") = true := by
    rw [any_setField, h3]; rfl
  have efind := find?_setField_self bf "metadata"
    (.obj (setField mfs "last_updated" (.str now)))
  have e4 : (setField mfs "last_updated" (.str now)).any
      (fun kv => kv.1 == "created") = true := by
    rw [any_setField, h4]; rfl
  have e5 : (setField mfs "last_updated" (.str now)).any
      (fun kv => kv.1 == "last_updated") = true := by
    rw [any_setField, h5]; rfl
  simp [validate_model, refreshLastUpdated, pyIn, pySubscript,
    Bind.bind, Except.bind, Pure.pure, Except.pure, e1, e2, e3, efind, e4, e5]

theorem save_model_restore (bf mfs : List (String × Json)) (now : String)
    (pr : FileState) (hp : pr ≠ none)
    (hv : validate_model (.obj bf) = .ok true)
    (hmd : pySubscript (.obj bf) "metadata" = .ok (.obj mfs)) :
    save_model (.obj bf) now ⟨pr, some (some (.obj bf))⟩ ioOK
      = (true, ⟨some (some (refreshLastUpdated bf mfs now)), pr⟩,
         refreshLastUpdated bf mfs now) := by
  rcases pr with _ | p
  · exact absurd rfl hp
  · simp [save_model, hv, hmd, pySetKey, ioOK, refreshLastUpdated]

/-- C1 amended: when the primary is corrupt, or parses with the validation
predicate returning `False` (not raising), and the backup parses, validates
and has an object-valued `metadata`, `load_model` returns the backup's
content with `metadata.last_updated` refreshed, persists exactly that as
the new primary, and a subsequent load returns it unchanged; the refreshed
document agrees with the backup on every other top-level field and on every
other metadata field. -/
theorem C1_restore_from_backup (pr : FileState) (bf mfs : List (String × Json))
    (now now2 : String)
    (hpr : pr = some none ∨ ∃ p, pr = some (some p) ∧ validate_model p = .ok false)
    (hv : validate_model (.obj bf) = .ok true)
    (hmd : pySubscript (.obj bf) "metadata" = .ok (.obj mfs)) :
    load_model ⟨pr, some (some (.obj bf))⟩ now ioOK
        = (refreshLastUpdated bf mfs now,
           ⟨some (some (refreshLastUpdated bf mfs now)), pr⟩)
      ∧ load_model ⟨some (some (refreshLastUpdated bf mfs now)), pr⟩ now2 ioOK
        = (refreshLastUpdated bf mfs now,
           ⟨some (some (refreshLastUpdated bf mfs now)), pr⟩)
      ∧ (∀ k, k ≠ "metadata" →
          pySubscript (refreshLastUpdated bf mfs now) k = pySubscript (.obj bf) k)
      ∧ pySubscript (refreshLastUpdated bf mfs now) "metadata"
          = .ok (.obj (setField mfs "last_updated" (.str now)))
      ∧ (∀ k, k ≠ "last_updated" →
          (setField mfs "last_updated" (.str now)).find? (fun kv => kv.1 == k)
            = mfs.find? (fun kv => kv.1 == k)) := by
  have hpne : pr ≠ none := by
    rcases hpr with h | ⟨p, hpe, _⟩
    · rw [h]; exact fun hc => Option.noConfusion hc
    · rw [hpe]; exact fun hc => Option.noConfusion hc
  have hsave := save_model_restore bf mfs now pr hpne hv hmd
  refine ⟨?_, ?_, ?_, ?_, ?_⟩
  · rcases hpr with h | ⟨p, hpe, hpv⟩
    · subst h
      simp [load_model, hv, hsave]
    · subst hpe
      simp [load_model, hpv, hv, hsave]
  · simp [load_model, validate_refresh bf mfs now hv hmd]
  · intro k hk
    show (match (setField bf "metadata" _).find? (fun kv => kv.1 == k) with
      | some kv => Except.ok kv.2
      | none => Except.error PyErr.keyError) = _
    rw [find?_setField_other bf "metadata" k _ hk]
    rfl
  · simp [refreshLastUpdated, pySubscript, find?_setField_self]
  · intro k hk
    exact find?_setField_other mfs "last_updated" k _ hk

/-- C3: when the primary file is corrupt or structurally invalid and there
is no valid backup (missing, corrupt, or invalid), `load_model` returns a
fresh default document — empty concepts mapping, empty misconceptions and
sessions, populated metadata — rather than raising, and leaves the
filesystem untouched. -/
theorem C3_default_on_exhausted_recovery :
    (∀ (fs : FS) (now : String) (plan : IOPlan),
        primaryBad fs → backupBad fs →
        load_model fs now plan = (get_default_model now, fs))
    ∧ (∀ now : String,
        pySubscript (get_default_model now) "concepts" = .ok (.obj [])
        ∧ pySubscript (get_default_model now) "misconceptions" = .ok (.arr [])
        ∧ pySubscript (get_default_model now) "sessions" = .ok (.arr [])
        ∧ pySubscript (get_default_model now) "metadata"
            = .ok (.obj [("created", .str now), ("last_updated", .str now),
                ("student_profile", .str "")])
        ∧ validate_model (get_default_model now) = .ok true) := by
  refine ⟨?_, fun now => ⟨rfl, rfl, rfl, rfl, rfl⟩⟩
  intro fs now plan hp hb
  rcases fs with ⟨pr, bk⟩
  rcases hp with hpc | ⟨p, hpe, hpv⟩
  · have hpc' : pr = some none := hpc
    subst hpc'
    rcases hb with h | h | ⟨b, hbe, hbv⟩
    · have h' : bk = none := h
      subst h'
      simp [load_model]
    · have h' : bk = some none := h
      subst h'
      simp [load_model]
    · have hbe' : bk = some (some b) := hbe
      subst hbe'
      cases hbv2 : validate_model b with
      | ok bb =>
        cases bb with
        | true => exact absurd hbv2 hbv
        | false => simp [load_model, hbv2]
      | error e => simp [load_model, hbv2]
  · have hpe' : pr = some (some p) := hpe
    subst hpe'
    cases hpv2 : validate_model p with
    | ok pb =>
      cases pb with
      | true => exact absurd hpv2 hpv
      | false =>
        rcases hb with h | h | ⟨b, hbe, hbv⟩
        · have h' : bk = none := h
          subst h'
          simp [load_model, hpv2]
        · have h' : bk = some none := h
          subst h'
          simp [load_model, hpv2]
        · have hbe' : bk = some (some b) := hbe
          subst hbe'
          cases hbv2 : validate_model b with
          | ok bb =>
            cases bb with
            | true => exact absurd hbv2 hbv
            | false => simp [load_model, hpv2, hbv2]
          | error e => simp [load_model, hpv2, hbv2]
    | error e => simp [load_model, hpv2]

/-- Witness for C3: corrupt primary, no backup. -/
theorem C3_witness :
    load_model ⟨some none, none⟩ "T7" ioOK
      = (get_default_model "T7", ⟨some none, none⟩) :=
  C3_default_on_exhausted_recovery.1 ⟨some none, none⟩ "T7" ioOK
    (Or.inl rfl) (Or.inl rfl)

/-- C2 counterexample: on a first-ever save (no primary, no backup) whose
post-rename backup `shutil.copy` fails, `save_model` returns `False` even
though the new content has already been renamed over the primary — the
previous primary state (absent) is not left untouched. -/
theorem C2_counterexample :
    (save_model (get_default_model "T0") "T1" ⟨none, none⟩
        ⟨false, false, false, true⟩).1 = false
    ∧ (save_model (get_default_model "T0") "T1" ⟨none, none⟩
        ⟨false, false, false, true⟩).2.1.primary ≠ none :=
  ⟨rfl, fun h => Option.noConfusion h⟩

/-- C2 amended: a document failing the validation predicate makes save
return `False` with the filesystem (and the in-memory document) completely
untouched; and on any failure outcome the previous primary is unchanged,
except when the failure is the post-rename backup creation of a first-ever
save, in which case the primary has already been replaced. -/
theorem C2_save_failure :
    (∀ (model : Json) (now : String) (fs : FS) (plan : IOPlan),
        validate_model model ≠ .ok true →
        save_model model now fs plan = (false, fs, model))
    ∧ (∀ (model : Json) (now : String) (fs : FS) (plan : IOPlan),
        (save_model model now fs plan).1 = false →
        (save_model model now fs plan).2.1.primary = fs.primary
          ∨ (fs.primary = none ∧ fs.backup = none ∧ plan.postCopyFail = true)) := by
  constructor
  · intro model now fs plan hv
    cases h : validate_model model with
    | ok b =>
      cases b with
      | true => exact absurd h hv
      | false => simp [save_model, h]
    | error e => simp [save_model, h]
  · intro model now fs plan hfail
    cases h : validate_model model with
    | error e => left; simp [save_model, h]
    | ok b =>
      cases b with
      | false => left; simp [save_model, h]
      | true =>
        cases hsub : pySubscript model "metadata" with
        | error e => left; simp [save_model, h, hsub]
        | ok md =>
          cases hset1 : pySetKey md "last_updated" (.str now) with
          | error e => left; simp [save_model, h, hsub, hset1]
          | ok md2 =>
            cases hset2 : pySetKey model "metadata" md2 with
            | error e => left; simp [save_model, h, hsub, hset1, hset2]
            | ok model2 =>
              rcases hpr : fs.primary with _ | p
              · cases hwt : plan.writeTmpFail with
                | true => left; simp [save_model, h, hsub, hset1, hset2, hpr, hwt]
                | false =>
                  cases hrn : plan.renameFail with
                  | true =>
                    left; simp [save_model, h, hsub, hset1, hset2, hpr, hwt, hrn]
                  | false =>
                    rcases hbk : fs.backup with _ | b2
                    · cases hpc : plan.postCopyFail with
                      | true => right; exact ⟨rfl, rfl, rfl⟩
                      | false =>
                        simp [save_model, h, hsub, hset1, hset2, hpr, hwt, hrn,
                          hbk, hpc] at hfail
                    · simp [save_model, h, hsub, hset1, hset2, hpr, hwt, hrn,
                        hbk] at hfail
              · cases hcb : plan.copyBackupFail with
                | true => left; simp [save_model, h, hsub, hset1, hset2, hpr, hcb]
                | false =>
                  cases hwt : plan.writeTmpFail with
                  | true =>
                    left; simp [save_model, h, hsub, hset1, hset2, hpr, hcb, hwt]
                  | false =>
                    cases hrn : plan.renameFail with
                    | true =>
                      left
                      simp [save_model, h, hsub, hset1, hset2, hpr, hcb, hwt, hrn]
                    | false =>
                      simp [save_model, h, hsub, hset1, hset2, hpr, hcb, hwt,
                        hrn] at hfail

/-- Witness for C2: an invalid document (a bare number) is refused. -/
theorem C2_witness :
    save_model (Json.num 5) "T1" ⟨none, none⟩ ioOK
      = (false, ⟨none, none⟩, Json.num 5) :=
  C2_save_failure.1 (Json.num 5) "T1" ⟨none, none⟩ ioOK
    (fun h => Except.noConfusion h)

/-- C1 counterexample, two scenarios.  (1) A backup whose `metadata` is the
array `["created", "last_updated"]` parses and passes `validate_model`
(Python's `in` on a list is element membership), yet the self-healing
`save_model` call dies on the timestamp item assignment, so the restored
content is returned but never persisted: the filesystem is unchanged and
the primary is still corrupt.  (2) A primary parsing to the bare number 5
is structurally invalid, but `validate_model` raises `TypeError` on it, and
the `except Exception` handler returns the default document without ever
consulting the (perfectly valid) backup. -/
theorem C1_counterexample :
    (validate_model (Json.obj [("metadata", .arr [.str "created", .str "last_updated"]),
        ("concepts", .obj []), ("sessions", .arr [])]) = .ok true
      ∧ load_model ⟨some none,
          some (some (Json.obj [("metadata", .arr [.str "created", .str "last_updated"]),
            ("concepts", .obj []), ("sessions", .arr [])]))⟩ "T1" ioOK
        = (Json.obj [("metadata", .arr [.str "created", .str "last_updated"]),
            ("concepts", .obj []), ("sessions", .arr [])],
           ⟨some none,
            some (some (Json.obj [("metadata", .arr [.str "created", .str "last_updated"]),
              ("concepts", .obj []), ("sessions", .arr [])]))⟩))
    ∧ (validate_model (get_default_model "T0") = .ok true
      ∧ load_model ⟨some (some (.num 5)), some (some (get_default_model "T0"))⟩ "T1" ioOK
        = (get_default_model "T1",
           ⟨some (some (.num 5)), some (some (get_default_model "T0"))⟩)) :=
  ⟨⟨rfl, rfl⟩, ⟨rfl, rfl⟩⟩

/-- Witness for C1: restoring a concrete default-shaped backup over a
corrupt primary. -/
theorem C1_witness :
    load_model ⟨some none, some (some (.obj [("schema_version", .str "1.0"),
        ("metadata", .obj [("created", .str "T0"), ("last_updated", .str "T0"),
          ("student_profile", .str "")]),
        ("concepts", .obj []), ("misconceptions", .arr []),
        ("sessions", .arr [])]))⟩ "T1" ioOK
      = (refreshLastUpdated [("schema_version", .str "1.0"),
          ("metadata", .obj [("created", .str "T0"), ("last_updated", .str "T0"),
            ("student_profile", .str "")]),
          ("concepts", .obj []), ("misconceptions", .arr []), ("sessions", .arr [])]
          [("created", .str "T0"), ("last_updated", .str "T0"),
            ("student_profile", .str "")] "T1",
         ⟨some (some (refreshLastUpdated [("schema_version", .str "1.0"),
            ("metadata", .obj [("created", .str "T0"), ("last_updated", .str "T0"),
              ("student_profile", .str "")]),
            ("concepts", .obj []), ("misconceptions", .arr []), ("sessions", .arr [])]
            [("created", .str "T0"), ("last_updated", .str "T0"),
              ("student_profile", .str "")] "T1")), some none⟩) :=
  (C1_restore_from_backup (some none)
    [("schema_version", .str "1.0"),
      ("metadata", .obj [("created", .str "T0"), ("last_updated", .str "T0"),
        ("student_profile", .str "")]),
      ("concepts", .obj []), ("misconceptions", .arr []), ("sessions", .arr [])]
    [("created", .str "T0"), ("last_updated", .str "T0"), ("student_profile", .str "")]
    "T1" "T2" (Or.inl rfl) rfl rfl).1

end Student